import Mathlib

/-
Verification of the umu-launcher install/update core (umu/umu_util.py).

The development shallowly embeds the Python source:

* JSON values loaded by `json.load` become `JsonVal` (only the shapes the
  manifest schema uses: null, strings and objects; objects are association
  lists in insertion order, matching CPython dict iteration order).
* Python dict indexing (`d[k]`, raising `KeyError`/`TypeError`), `dict.get`
  (raising `AttributeError` on non-dicts) and truthiness are embedded
  explicitly; fallible operations return `Except PyErr`.
* Filesystem effects are embedded as explicit state: the install directory's
  top-level listing is a `List Entry` for the reconciliation engine and a
  list of named `Node` trees for the relocator; the functions additionally
  produce an event trace so that ordering properties (removal before fetch
  scheduling, manifest write last) are stated about the trace.
* Concurrency: `_update_umu` submits `setup_runtime` futures to a thread
  pool and joins them in submission order before writing the manifest; the
  futures' outcomes are an oracle `Nat → Option PyErr` (result of the i-th
  submitted task).  `setup_runtime`'s own external inputs (environment,
  zenity exit code, HTTP response, archive content) are an `Oracle` record.
-/

set_option autoImplicit false

/-- Python exceptions that the embedded code can raise. -/
inductive PyErr where
  | fileNotFound (msg : String)
  | valueError (msg : String)
  | keyError (key : String)
  | typeError
  | attributeError
  | notADirectory (name : String)
  | isADirectory (name : String)
  | dirNotEmpty (name : String)
  | fileExists (name : String)
  | httpException (msg : String)
  | urlError
  | readError
deriving DecidableEq, Repr

/-- JSON values as loaded by `json.load`, restricted to the shapes the
manifest schema uses.  Objects are association lists in insertion order
(CPython dicts preserve insertion order). -/
inductive JsonVal where
  | null
  | str (s : String)
  | obj (kvs : List (String × JsonVal))
deriving Repr

/-- Python truthiness of a loaded JSON value (`None`, `""` and `{}` are
falsy). -/
def JsonVal.truthy : JsonVal → Bool
  | .null => false
  | .str s => !(s == "")
  | .obj kvs => !kvs.isEmpty

mutual

/-- Structural equality, embedding Python `==` on loaded JSON values.  For
the string-valued version fields compared by the source this coincides with
CPython semantics; for objects CPython compares dicts order-insensitively,
which agrees with this order-sensitive comparison on the schema-conforming
values (unique keys, compared only against themselves) exercised here. -/
def jsonBeq : JsonVal → JsonVal → Bool
  | JsonVal.null, JsonVal.null => true
  | JsonVal.str a, JsonVal.str b => a == b
  | JsonVal.obj a, JsonVal.obj b => kvsBeq a b
  | _, _ => false

/-- Pointwise equality of association lists, for `jsonBeq`. -/
def kvsBeq : List (String × JsonVal) → List (String × JsonVal) → Bool
  | [], [] => true
  | (k, v) :: xs, (k2, v2) :: ys => k == k2 && jsonBeq v v2 && kvsBeq xs ys
  | _, _ => false

end

/-- Python `str()` of a loaded JSON value, as used by the f-string
`f"*{current}"`.  The manifest schema fixes version values to strings, so
only the `str` case is exercised by the reconciliation engine; the other
cases are indicative placeholders. -/
def pyStr : JsonVal → String
  | .str s => s
  | .null => "None"
  | .obj _ => "<dict>"

/-- Python `d[k]` on a loaded JSON value: `KeyError` when the key is absent
from an object, `TypeError` when the value is not an object. -/
def pyIndex (j : JsonVal) (k : String) : Except PyErr JsonVal :=
  match j with
  | .obj kvs =>
    match (kvs.find? (fun p => p.1 == k)).map (fun p => p.2) with
    | some v => .ok v
    | none => .error (.keyError k)
  | _ => .error .typeError

/-- Python `d[k1][k2]`. -/
def pyIndex2 (j : JsonVal) (k1 k2 : String) : Except PyErr JsonVal :=
  match pyIndex j k1 with
  | .error e => .error e
  | .ok x => pyIndex x k2

/-- Python `d[k1][k2][k3]`. -/
def pyIndex3 (j : JsonVal) (k1 k2 k3 : String) : Except PyErr JsonVal :=
  match pyIndex2 j k1 k2 with
  | .error e => .error e
  | .ok x => pyIndex x k3

/-- Python `d.get(k)`: `none` when the key is absent; `AttributeError`
when the receiver is not a dict (e.g. `"x".get(...)`). -/
def pyGet (j : JsonVal) (k : String) : Except PyErr (Option JsonVal) :=
  match j with
  | .obj kvs => .ok ((kvs.find? (fun p => p.1 == k)).map (fun p => p.2))
  | _ => .error .attributeError

/-- Truthiness of `d.get(k)`'s result (`None` is falsy). -/
def optTruthy : Option JsonVal → Bool
  | none => false
  | some j => j.truthy

/-- Python dict `__setitem__` on an association list: replaces the value at
the first occurrence of the key, keeping its position, or appends a new
binding (CPython insertion-order semantics). -/
def objSet : List (String × JsonVal) → String → JsonVal → List (String × JsonVal)
  | [], k, v => [(k, v)]
  | (k', v') :: rest, k, v =>
    if k' == k then (k', v) :: rest else (k', v') :: objSet rest k v

/-- Modelled from the spec: the fixed manifest file name (`CONFIG` lives in
`umu_consts`, outside the provided sources); the source docstrings and the
spec name it `umu_version.json`. -/
def CONFIG : String := "umu_version.json"

/-- True when `pat` occurs contiguously in `l`. -/
def occursIn (pat : List Char) : List Char → Bool
  | [] => pat.isEmpty
  | c :: rest => List.isPrefixOf pat (c :: rest) || occursIn pat rest

/-- True when `pat` occurs as a substring of `s` (used to check that error
messages direct the user to reinstall). -/
def containsSub (s pat : String) : Bool := occursIn pat.toList s.toList

/-- Message raised by `_get_json` when the manifest file is absent. -/
def notFoundMsg : String :=
  "File not found: " ++ CONFIG ++
  "\nPlease reinstall the package to recover configuration file"

/-- Message raised by `_get_json` when the manifest lacks the required
structure. -/
def malformedMsg : String :=
  "Failed to load " ++ CONFIG ++ " or \x27umu\x27 or \x27versions\x27 not in: " ++
  CONFIG ++ "\nPlease reinstall the package"

/-- Embedding of `_get_json(path, config)`.  The argument is the state of
the manifest file at the path: `none` when absent, `some j` when present
with parsed content `j`.  The validation mirrors
`if not json or not json.get("umu") or not json.get("umu").get("versions")`
including Python's left-to-right short-circuit evaluation, the repeated
evaluation of `json.get("umu")` in the third disjunct, and the
`AttributeError` that `.get` raises on a non-dict receiver.  The function
is pure: it has no effect beyond reading its argument. -/
def _get_json (file : Option JsonVal) : Except PyErr JsonVal :=
  match file with
  | none => .error (.fileNotFound notFoundMsg)
  | some j =>
    if !j.truthy then .error (.valueError malformedMsg)
    else
      match pyGet j "umu" with
      | .error e => .error e
      | .ok umuOpt =>
        if !(optTruthy umuOpt) then .error (.valueError malformedMsg)
        else
          match pyGet j "umu" with
          | .error e => .error e
          | .ok umuOpt2 =>
            match umuOpt2 with
            | none => .error .attributeError
            | some u =>
              match pyGet u "versions" with
              | .error e => .error e
              | .ok verOpt =>
                if !(optTruthy verOpt) then .error (.valueError malformedMsg)
                else .ok j

/-- Embedding of `json_local["umu"]["versions"][k] = v`: both levels of
indexing may raise; `__setitem__` then requires the `versions` value to be
a dict (`TypeError` otherwise).  The nested dicts form a tree (fresh
objects from `json.load`), so the in-place mutation is embedded as a
functional rebuild of the path. -/
def pySetVersions (j : JsonVal) (k : String) (v : JsonVal) : Except PyErr JsonVal :=
  match pyIndex j "umu" with
  | .error e => .error e
  | .ok u =>
    match pyIndex u "versions" with
    | .error e => .error e
    | .ok vv =>
      match j, u, vv with
      | .obj kvs, .obj ukvs, .obj vkvs =>
        .ok (.obj (objSet kvs "umu"
              (.obj (objSet ukvs "versions" (.obj (objSet vkvs k v))))))
      | _, _, _ => .error .typeError

/-- A top-level entry of the install directory as seen by `_update_umu`:
its name and whether it is a directory. -/
structure Entry where
  name : String
  isDir : Bool
deriving DecidableEq, Repr

/-- True when the install directory has a directory named `name`
(`local.joinpath(name).is_dir()`). -/
def isDirEntry (es : List Entry) (name : String) : Bool :=
  es.any (fun e => e.name == name && e.isDir)

/-- Remove every entry called `name` (effect of `shutil.rmtree` on the
listing; names are unique on a real filesystem). -/
def rmAll (es : List Entry) (name : String) : List Entry :=
  es.filter (fun e => !(e.name == name))

/-- Unguarded `shutil.rmtree(name)`: `FileNotFoundError` when the
entry is absent, `NotADirectoryError` when it is not a directory. -/
def rmtreeStrict (es : List Entry) (name : String) : Except PyErr (List Entry) :=
  match es.find? (fun e => e.name == name) with
  | none => .error (.fileNotFound name)
  | some e => if e.isDir then .ok (rmAll es name) else .error (.notADirectory name)

/-- Whether `local.glob(f"*{cur}")` yields the entry named `name`: the name
must end with `cur` (a suffix check on the character list, matching
fnmatch on the pattern `*cur`).  `pathlib.Path.glob`, which the source
uses, matches dot-prefixed (hidden) names too, so no hidden-name
exclusion applies. -/
def globMatch (name cur : String) : Bool :=
  List.isSuffixOf cur.toList name.toList

/-- Events recorded by one reconciliation-loop iteration: a recursive
directory removal under the install directory, or the submission of a
`setup_runtime` re-fetch future to the executor. -/
inductive StepEv where
  | rmE (name : String)
  | submitE
deriving DecidableEq, Repr

/-- True for removal events. -/
def StepEv.isRm : StepEv → Bool
  | .rmE _ => true
  | .submitE => false

/-- True for future-submission events. -/
def StepEv.isSubmit : StepEv → Bool
  | .rmE _ => false
  | .submitE => true

/-- State threaded through the reconciliation loop: the install directory
listing, the mutable `json_local` dict, the number of `setup_runtime`
futures submitted so far, and the event trace. -/
structure USt where
  entries : List Entry
  json : JsonVal
  sched : Nat
  trace : List StepEv
deriving Repr

/-- One `reaper`/`launcher`/`runner` iteration of the loop in
`_update_umu` (the three branches are identical up to the key): read the
local version (`KeyError`/`TypeError` propagate), skip when it equals the
reference value, otherwise record the reference value in `json_local`.  No
filesystem access and no future submission happen in these branches. -/
def simpleStep (k : String) (v : JsonVal) (st : USt) : USt × Option PyErr :=
  match pyIndex3 st.json "umu" "versions" k with
  | .error e => (st, some e)
  | .ok cur =>
    if jsonBeq v cur then (st, none)
    else
      match pySetVersions st.json k v with
      | .error e => (st, some e)
      | .ok j' => ({ st with json := j' }, none)

/-- The `runtime_platform` iteration of the loop in `_update_umu`:

* `current = json_local["umu"]["versions"]["runtime_platform"]`;
* `runtime` is the first entry yielded by `local.glob(f"*{current}")`
  (file or directory), `none` when the glob matches nothing;
* restore branch (`not runtime or not pressure-vessel dir`): remove the
  glob match if it is a directory, then remove `pressure-vessel` if it is
  (still) a directory, submit a `setup_runtime(json_root)` future, and set
  the local `runtime_platform` version to the reference value;
* stale branch (glob match present, `pressure-vessel` present, reference
  version differs): `rmtree` the glob match unguarded (so a matching
  plain file raises `NotADirectoryError`), `rmtree` `pressure-vessel`,
  submit the future and set the version;
* otherwise no action. -/
def rtStep (v : JsonVal) (st : USt) : USt × Option PyErr :=
  match pyIndex3 st.json "umu" "versions" "runtime_platform" with
  | .error e => (st, some e)
  | .ok cur =>
    let curs := pyStr cur
    let runtime : Option Entry := st.entries.find? (fun e => globMatch e.name curs)
    if runtime.isNone || !(isDirEntry st.entries "pressure-vessel") then
      let (es1, t1) :=
        match runtime with
        | some r => if r.isDir then (rmAll st.entries r.name, [StepEv.rmE r.name])
                    else (st.entries, [])
        | none => (st.entries, ([] : List StepEv))
      let (es2, t2) :=
        if isDirEntry es1 "pressure-vessel" then
          (rmAll es1 "pressure-vessel", t1 ++ [StepEv.rmE "pressure-vessel"])
        else (es1, t1)
      let tr2 := st.trace ++ t2 ++ [StepEv.submitE]
      let st2 : USt := { st with entries := es2, sched := st.sched + 1, trace := tr2 }
      match pySetVersions st2.json "runtime_platform" v with
      | .error e => (st2, some e)
      | .ok j' => ({ st2 with json := j' }, none)
    else
      match runtime with
      | none => (st, none)
      | some r =>
        if !(jsonBeq v cur) then
          match rmtreeStrict st.entries r.name with
          | .error e => (st, some e)
          | .ok es1 =>
            let trA := st.trace ++ [StepEv.rmE r.name]
            let stA : USt := { st with entries := es1, trace := trA }
            match rmtreeStrict es1 "pressure-vessel" with
            | .error e => (stA, some e)
            | .ok es2 =>
              let trB := stA.trace ++ [StepEv.rmE "pressure-vessel", StepEv.submitE]
              let stB : USt := { stA with entries := es2, sched := st.sched + 1, trace := trB }
              match pySetVersions stB.json "runtime_platform" v with
              | .error e => (stB, some e)
              | .ok j' => ({ stB with json := j' }, none)
        else (st, none)

/-- One iteration of `for key, val in json_root["umu"]["versions"].items()`:
dispatch on the four known keys; any other key matches no branch and is
skipped. -/
def updateStep (k : String) (v : JsonVal) (st : USt) : USt × Option PyErr :=
  if k == "reaper" then simpleStep "reaper" v st
  else if k == "runtime_platform" then rtStep v st
  else if k == "launcher" then simpleStep "launcher" v st
  else if k == "runner" then simpleStep "runner" v st
  else (st, none)

/-- The reconciliation loop over the reference manifest's items, in
insertion order; the first raised exception aborts the loop (the already
performed filesystem mutations persist). -/
def updateLoop : List (String × JsonVal) → USt → USt × Option PyErr
  | [], st => (st, none)
  | (k, v) :: rest, st =>
    match updateStep k v st with
    | (st', none) => updateLoop rest st'
    | (st', some e) => (st', some e)

/-- Events of a whole reconciliation run, extending the loop events with
the final rewrite of the local manifest file. -/
inductive Ev where
  | rmEv (name : String)
  | submitEv
  | writeEv (j : JsonVal)

/-- Injection of loop events into run events. -/
def StepEv.toEv : StepEv → Ev
  | .rmE n => .rmEv n
  | .submitE => .submitEv

/-- True for manifest-write events. -/
def Ev.isWrite : Ev → Bool
  | .writeEv _ => true
  | _ => false

/-- True for future-submission events. -/
def Ev.isSubmit : Ev → Bool
  | .submitEv => true
  | _ => false

/-- Embedding of `for _ in futures: _.result()`: join the `n` submitted futures in
submission order and re-raise the first failure; `f i` is the outcome of
the i-th submitted `setup_runtime` task (`none` on success). -/
def joinFutures (f : Nat → Option PyErr) (n : Nat) : Option PyErr :=
  match (List.range n).find? (fun i => (f i).isSome) with
  | some i => f i
  | none => none

/-- Result of a reconciliation run: the final install-directory listing,
the content of the local manifest file (`manifestFile`; the run rewrites
it from `json_local` on success and otherwise leaves it untouched), the
final `json_local` dict, the number of submitted futures, the event trace
and the propagated exception, if any. -/
structure UpdResult where
  entries : List Entry
  manifestFile : JsonVal
  jsonLocal : JsonVal
  sched : Nat
  trace : List Ev
  err : Option PyErr

/-- Embedding of `_update_umu(local, json_root, json_local)`.  `f` gives
the outcomes of the submitted `setup_runtime` futures, `es` the install
directory listing, `mf` the current parsed content of the local manifest
file.  Iterates over `json_root["umu"]["versions"].items()` (an
`AttributeError` if that value is not a dict), joins all futures, and only
then rewrites the local manifest file from `json_local`; any exception
(loop or future) propagates and skips the write. -/
def _update_umu (f : Nat → Option PyErr) (root loc : JsonVal) (es : List Entry)
    (mf : JsonVal) : UpdResult :=
  match pyIndex2 root "umu" "versions" with
  | .error e => ⟨es, mf, loc, 0, [], some e⟩
  | .ok vv =>
    match vv with
    | .obj items =>
      match updateLoop items ⟨es, loc, 0, []⟩ with
      | (st, some e) => ⟨st.entries, mf, st.json, st.sched, st.trace.map StepEv.toEv, some e⟩
      | (st, none) =>
        match joinFutures f st.sched with
        | some e => ⟨st.entries, mf, st.json, st.sched, st.trace.map StepEv.toEv, some e⟩
        | none => ⟨st.entries, st.json, st.json, st.sched,
                   st.trace.map StepEv.toEv ++ [.writeEv st.json], none⟩
    | _ => ⟨es, mf, loc, 0, [], some .attributeError⟩

/-- A filesystem node: a regular file with content, or a directory with
named children. -/
inductive Node where
  | file (data : String)
  | dir (children : List (String × Node))
deriving Repr

/-- True for directory nodes. -/
def Node.isDirN : Node → Bool
  | .dir _ => true
  | .file _ => false

/-- Look up the child named `name` in a directory listing. -/
def nlookup (xs : List (String × Node)) (name : String) : Option Node :=
  (xs.find? (fun p => p.1 == name)).map (fun p => p.2)

/-- Remove every child named `name` from a directory listing
(`shutil.rmtree`; names are unique on a real filesystem). -/
def nremove (xs : List (String × Node)) (name : String) : List (String × Node) :=
  xs.filter (fun p => !(p.1 == name))

/-- Replace the child at the first occurrence of `name`, or append it. -/
def nset : List (String × Node) → String → Node → List (String × Node)
  | [], k, v => [(k, v)]
  | (k', v') :: rest, k, v =>
    if k' == k then (k', v) :: rest else (k', v') :: nset rest k v

/-- Events of one `_move` call: the recursive removal of the same-named
destination directory, and the move of the source entry. -/
inductive MvEv where
  | rmDestE (name : String)
  | movedE (name : String)
deriving DecidableEq, Repr

/-- True for destination-removal events. -/
def MvEv.isRmDest : MvEv → Bool
  | .rmDestE _ => true
  | .movedE _ => false

/-- Source (staging) and destination (install) directory listings operated
on by the relocator. -/
structure MoveSt where
  src : List (String × Node)
  dst : List (String × Node)
deriving Repr

/-- Embedding of `_move(file, src, dst)` for the entry called `name`.
`srcExists` is `src.is_file() or src.is_dir()` — the guard tests the
staging ROOT directory, not the entry itself.  Steps, in order:

* if `dst/name` is a directory, `rmtree` it;
* if the staging root exists, `shutil.move(src/name, dst/name)`:
  `FileNotFoundError` when the source entry is absent; a plain rename when
  the destination name is now free; an overwrite when both are regular
  files; `shutil.move` of a directory onto an existing regular file fails
  (`os.rename` gives `NotADirectoryError` and the `copytree` fallback
  refuses the existing path), with no mutation; moving onto a still
  existing destination directory places the source inside it unless the
  inner name is taken (unreachable after the removal above). -/
def _move (name : String) (srcExists : Bool) (st : MoveSt) :
    MoveSt × List MvEv × Option PyErr :=
  let destIsDir : Bool :=
    match nlookup st.dst name with
    | some (.dir _) => true
    | _ => false
  let st1 : MoveSt := if destIsDir then { st with dst := nremove st.dst name } else st
  let evs1 : List MvEv := if destIsDir then [.rmDestE name] else []
  if srcExists then
    match nlookup st1.src name with
    | none => (st1, evs1, some (.fileNotFound name))
    | some n =>
      match nlookup st1.dst name with
      | none =>
        (⟨nremove st1.src name, st1.dst ++ [(name, n)]⟩, evs1 ++ [.movedE name], none)
      | some (.file _) =>
        match n with
        | .file _ =>
          (⟨nremove st1.src name, nset st1.dst name n⟩, evs1 ++ [.movedE name], none)
        | .dir _ => (st1, evs1, some (.notADirectory name))
      | some (.dir kids) =>
        if (kids.find? (fun p => p.1 == name)).isSome then
          (st1, evs1, some (.fileExists name))
        else
          (⟨nremove st1.src name, nset st1.dst name (.dir (kids ++ [(name, n)]))⟩,
           evs1 ++ [.movedE name], none)
  else (st1, evs1, none)

/-- External inputs of one `setup_runtime` run: the `UMU_ZENITY`
environment variable, the exit code of the external `enable_zenity` fetch
and whether it left a (possibly partial) archive file (both modelled from
the spec's collaborator interface, `umu_plugins` being outside the
provided sources), the `urlopen` outcome (transport error or HTTP status;
the body is irrelevant to the claims), whether the downloaded archive
opens as a valid tar, whether `tarfile.tar_filter` is available, and the
extracted `SteamLinuxRuntime_sniper` subtree (`none` when no archive
member carries that prefix, so the directory is never created). -/
structure Oracle where
  umuZenity : Option String
  zenityRet : Int
  zenityWrote : Bool
  fetchResult : Except PyErr Nat
  tarOk : Bool
  tarFilterAvail : Bool
  extractedRoot : Option (List (String × Node))

/-- Events of one `setup_runtime` run. -/
inductive RtEv where
  | zenityFetchE
  | discardArchiveE
  | directFetchE (timeout : Nat)
  | insecureWarnE
  | moveE (e : MvEv)
  | rmExtractedE
  | rmArchiveE
  | renameE
deriving DecidableEq, Repr

/-- True for the archive-unlink step. -/
def RtEv.isRmArchive : RtEv → Bool
  | .rmArchiveE => true
  | _ => false

/-- True for direct-fetch events. -/
def RtEv.isDirectFetch : RtEv → Bool
  | .directFetchE _ => true
  | _ => false

/-- Python truthiness of `environ.get("UMU_ZENITY")` (unset or empty is
falsy). -/
def envTruthy : Option String → Bool
  | none => false
  | some s => !(s == "")

/-- The download section of `setup_runtime`: when `UMU_ZENITY == "1"`, run
the external zenity/curl fetch; on a non-zero exit code unlink the partial
archive (`missing_ok=True`) and fall through; when `UMU_ZENITY` is falsy
or the zenity fetch failed, fetch directly via `urlopen` with
`timeout=300`, raising `HTTPException` on any status other than 200 and
writing the archive on success.  Returns whether the archive file exists
in staging, the events, and the raised error, if any. -/
def downloadPhase (o : Oracle) : Bool × List RtEv × Option PyErr :=
  let z :=
    if o.umuZenity == some "1" then
      if o.zenityRet != 0 then (o.zenityRet, false, [RtEv.zenityFetchE, RtEv.discardArchiveE])
      else ((0 : Int), o.zenityWrote, [RtEv.zenityFetchE])
    else ((0 : Int), false, ([] : List RtEv))
  match z with
  | (ret, arch0, evs0) =>
    if !(envTruthy o.umuZenity) || ret != 0 then
      let evs := evs0 ++ [RtEv.directFetchE 300]
      match o.fetchResult with
      | .error e => (arch0, evs, some e)
      | .ok s =>
        if s != 200 then
          (arch0, evs, some (.httpException
            ("repo.steampowered.com returned the status: " ++ toString s)))
        else (true, evs, none)
    else (arch0, evs0, none)

/-- The relocation loop of `setup_runtime`: one `_move` future per
top-level entry of the extracted tree (`source_dir.glob("*")`;
`pathlib.Path.glob` yields hidden entries too).  All futures run — distinct names touch disjoint entries, so the
parallel execution agrees with this sequential fold — and the first error
in submission order is re-raised by the `for _ in futures: _.result()`
loop. -/
def relocateAll (names : List String) (st : MoveSt) : MoveSt × List RtEv × Option PyErr :=
  match names with
  | [] => (st, [], none)
  | n :: rest =>
    match _move n true st with
    | (st1, evs1, e1) =>
      match relocateAll rest st1 with
      | (st2, evs2, e2) => (st2, evs1.map RtEv.moveE ++ evs2, e1 <|> e2)

/-- The final `UMU_LOCAL.joinpath("_v2-entry-point").rename(...)` step:
`FileNotFoundError` when the entry point is absent; `os.rename` semantics
onto an existing name (overwrite a file with a file, replace an empty
directory with a directory, fail on the mixed cases and on a non-empty
destination directory). -/
def renameEntryPoint (install : List (String × Node)) :
    List (String × Node) × Option PyErr :=
  match nlookup install "_v2-entry-point" with
  | none => (install, some (.fileNotFound "_v2-entry-point"))
  | some n =>
    match nlookup install "umu" with
    | none => (nremove install "_v2-entry-point" ++ [("umu", n)], none)
    | some (.file _) =>
      match n with
      | .file _ => (nset (nremove install "_v2-entry-point") "umu" n, none)
      | .dir _ => (install, some (.notADirectory "umu"))
    | some (.dir kids) =>
      match n with
      | .file _ => (install, some (.isADirectory "umu"))
      | .dir _ =>
        if kids.isEmpty then (nset (nremove install "_v2-entry-point") "umu" n, none)
        else (install, some (.dirNotEmpty "umu"))

/-- Result of one `setup_runtime` run: whether the `mkdtemp` staging
directory, the downloaded archive inside it and the extracted
`SteamLinuxRuntime_sniper` subtree still exist, the final install
directory, the events, and the raised error, if any. -/
structure RtResult where
  tmpExists : Bool
  archive : Bool
  extracted : Bool
  install : List (String × Node)
  events : List RtEv
  err : Option PyErr

/-- Embedding of `setup_runtime(json)`.  In order: `mkdtemp` creates the
staging directory; the download section runs; the archive is opened as a
tar (`FileNotFoundError` when no archive file exists, a read error when it
is not a valid tar); a warning is logged when no extraction filter is
available; `UMU_LOCAL` is created; members under the
`SteamLinuxRuntime_sniper/` prefix are extracted into staging; each
top-level extracted entry is relocated concurrently via `_move`; the
extracted directory is removed if it exists, then the archive file is
unlinked as its own step; finally `_v2-entry-point` is renamed to `umu`.
There is no handler around any of this: an error at any point propagates
and skips every later step, and the staging directory itself is never
removed on any path. -/
def setup_runtime (o : Oracle) (install0 : List (String × Node)) : RtResult :=
  match downloadPhase o with
  | (arch, evs, some e) => ⟨true, arch, false, install0, evs, some e⟩
  | (arch, evs, none) =>
    if !arch then ⟨true, false, false, install0, evs, some (.fileNotFound "archive")⟩
    else if !o.tarOk then ⟨true, true, false, install0, evs, some .readError⟩
    else
      let evs := evs ++ (if o.tarFilterAvail then [] else [RtEv.insecureWarnE])
      match o.extractedRoot with
      | none =>
        let evs := evs ++ [RtEv.rmArchiveE]
        match renameEntryPoint install0 with
        | (inst1, none) => ⟨true, false, false, inst1, evs ++ [RtEv.renameE], none⟩
        | (inst1, some e) => ⟨true, false, false, inst1, evs, some e⟩
      | some children =>
        let names := children.map (fun p => p.1)
        match relocateAll names ⟨children, install0⟩ with
        | (mst, mevs, some e) => ⟨true, true, true, mst.dst, evs ++ mevs, some e⟩
        | (mst, mevs, none) =>
          let evs := evs ++ mevs ++ [RtEv.rmExtractedE, RtEv.rmArchiveE]
          match renameEntryPoint mst.dst with
          | (inst1, none) => ⟨true, false, false, inst1, evs ++ [RtEv.renameE], none⟩
          | (inst1, some e) => ⟨true, false, false, inst1, evs, some e⟩

/-- True for `some (Node.file _)`. -/
def isFileO : Option Node → Bool
  | some (.file _) => true
  | _ => false

/-- True for `some (Node.dir _)`. -/
def isDirO : Option Node → Bool
  | some (.dir _) => true
  | _ => false

/-- True for a `ValueError` result (the loader's Malformed error). -/
def isMalformedRes : Except PyErr JsonVal → Bool
  | .error (.valueError _) => true
  | _ => false

/-- Claim-side predicate (from the spec's words, to compare against
`_get_json`): the parsed manifest is falsy, or its `umu` key is missing or
falsy, or — when the `umu` value is a mapping — its `versions` key is
missing or falsy. -/
def specMalformedMapping (j : JsonVal) : Bool :=
  !j.truthy ||
  (match j with
   | .obj kvs =>
     (match (kvs.find? (fun p => p.1 == "umu")).map (fun p => p.2) with
      | none => true
      | some u =>
        !u.truthy ||
        (match u with
         | .obj ukvs =>
           (match (ukvs.find? (fun p => p.1 == "versions")).map (fun p => p.2) with
            | none => true
            | some vv => !vv.truthy)
         | _ => false))
   | _ => false)

/-- The four component keys known to the reconciliation loop. -/
def isKnownKey (k : String) : Bool :=
  k == "reaper" || k == "runtime_platform" || k == "launcher" || k == "runner"

/-- Reference item `(k, v)` agrees with the local manifest: the local read
succeeds and the values are Python-equal. -/
def versionMatches (loc : JsonVal) (k : String) (v : JsonVal) : Bool :=
  match pyIndex3 loc "umu" "versions" k with
  | .ok w => jsonBeq v w
  | .error _ => false

/-- The installed runtime platform is intact: the glob on the locally
recorded version finds an entry and the `pressure-vessel` marker directory
exists. -/
def rtIntact (es : List Entry) (loc : JsonVal) : Bool :=
  match pyIndex3 loc "umu" "versions" "runtime_platform" with
  | .ok w => (es.find? (fun e => globMatch e.name (pyStr w))).isSome && isDirEntry es "pressure-vessel"
  | .error _ => false

/-- A manifest whose four component versions are the same in the reference
and the local copy (used as both). -/
def manifestAll : JsonVal :=
  .obj [("umu", .obj [("versions", .obj
    [("reaper", .str "r1"), ("runtime_platform", .str "v1"),
     ("launcher", .str "l1"), ("runner", .str "n1")])])]

/-- A local manifest that passes `_get_json` validation but lacks the
`reaper` component key. -/
def manifestNoReaper : JsonVal :=
  .obj [("umu", .obj [("versions", .obj [("runtime_platform", .str "v1")])])]

/-- Oracle for a fully successful `setup_runtime` run: no zenity, `HTTP
200`, a valid archive whose extracted tree carries the entry point. -/
def oracleHappy : Oracle :=
  ⟨none, 0, false, .ok 200, true, true,
   some [("_v2-entry-point", .file "e"), ("pressure-vessel", .dir [])]⟩

/-- Oracle for a run where `UMU_ZENITY=1`, the zenity fetch fails with
exit code 1 leaving a partial archive, and the direct fetch gets HTTP
404. -/
def oracleZenityFail : Oracle :=
  ⟨some "1", 1, true, .ok 404, true, true, some []⟩

example :
    _get_json (some (.obj [("umu", .obj [("versions", .obj [("runner", .str "v1")])])]))
      = .ok (.obj [("umu", .obj [("versions", .obj [("runner", .str "v1")])])]) := rfl

example : _get_json (some (.obj [("umu", .obj [])])) = .error (.valueError malformedMsg) := rfl

example : _get_json (some (.obj [("umu", .str "x")])) = .error .attributeError := rfl

theorem objSet_find_self (kvs : List (String × JsonVal)) (k : String) (v : JsonVal) :
    ((objSet kvs k v).find? (fun p => p.1 == k)).map (fun p => p.2) = some v := by
  induction kvs with
  | nil => simp [objSet]
  | cons kv rest ih =>
    obtain ⟨k', v'⟩ := kv
    by_cases h : k' = k
    · subst h
      simp [objSet]
    · have hb : (k' == k) = false := by simp [h]
      simp [objSet, hb, ih]

theorem objSet_find_other (kvs : List (String × JsonVal)) (k k' : String) (v : JsonVal)
    (h : (k' == k) = false) :
    (objSet kvs k v).find? (fun p => p.1 == k') = kvs.find? (fun p => p.1 == k') := by
  have h' : ¬ (k = k') := by
    intro he
    subst he
    simp at h
  induction kvs with
  | nil => simp [objSet, h']
  | cons kv rest ih =>
    obtain ⟨k0, v0⟩ := kv
    by_cases h0 : k0 = k
    · subst h0
      simp [objSet, h']
    · have hb : (k0 == k) = false := by simp [h0]
      simp only [objSet, hb, if_false]
      by_cases h1 : k0 = k'
      · subst h1
        simp
      · have hb1 : (k0 == k') = false := by simp [h1]
        simp [hb1, ih]

theorem pySetVersions_spec (j : JsonVal) (k : String) (w v : JsonVal)
    (h : pyIndex3 j "umu" "versions" k = .ok w) :
    ∃ j', pySetVersions j k v = .ok j' ∧
      pyIndex3 j' "umu" "versions" k = .ok v ∧
      ∀ k', (k' == k) = false →
        pyIndex3 j' "umu" "versions" k' = pyIndex3 j "umu" "versions" k' := by
  cases j with
  | null => simp [pyIndex3, pyIndex2, pyIndex] at h
  | str s => simp [pyIndex3, pyIndex2, pyIndex] at h
  | obj kvs =>
    cases hu : (kvs.find? (fun p => p.1 == "umu")).map (fun p => p.2) with
    | none => simp [pyIndex3, pyIndex2, pyIndex, hu] at h
    | some u =>
      cases u with
      | null => simp [pyIndex3, pyIndex2, pyIndex, hu] at h
      | str s => simp [pyIndex3, pyIndex2, pyIndex, hu] at h
      | obj ukvs =>
        cases hv : (ukvs.find? (fun p => p.1 == "versions")).map (fun p => p.2) with
        | none => simp [pyIndex3, pyIndex2, pyIndex, hu, hv] at h
        | some vv =>
          cases vv with
          | null => simp [pyIndex3, pyIndex2, pyIndex, hu, hv] at h
          | str s => simp [pyIndex3, pyIndex2, pyIndex, hu, hv] at h
          | obj vkvs =>
            refine ⟨JsonVal.obj (objSet kvs "umu" (JsonVal.obj (objSet ukvs "versions"
              (JsonVal.obj (objSet vkvs k v))))), ?_, ?_, ?_⟩
            · simp [pySetVersions, pyIndex, hu, hv]
            · simp [pyIndex3, pyIndex2, pyIndex, objSet_find_self]
            · intro k' hk'
              simp [pyIndex3, pyIndex2, pyIndex, objSet_find_self,
                    objSet_find_other _ _ _ _ hk', hu, hv]

theorem rmAll_all_ne (es : List Entry) (name : String) :
    (rmAll es name).all (fun e => !(e.name == name)) = true := by
  rw [List.all_eq_true]
  intro e he
  exact (List.mem_filter.mp he).2

theorem all_filter_of_all (es : List Entry) (p q : Entry → Bool) (h : es.all p = true) :
    (es.filter q).all p = true := by
  rw [List.all_eq_true] at h ⊢
  intro e he
  exact h e (List.mem_filter.mp he).1

theorem isDirEntry_of_all_ne (es : List Entry) (name : String)
    (h : es.all (fun e => !(e.name == name)) = true) : isDirEntry es name = false := by
  rw [List.all_eq_true] at h
  unfold isDirEntry
  rw [List.any_eq_false]
  intro e he
  have hne := h e he
  simp only [Bool.not_eq_true'] at hne
  simp [hne]

theorem isDirEntry_rmAll_self (es : List Entry) (name : String) :
    isDirEntry (rmAll es name) name = false :=
  isDirEntry_of_all_ne _ _ (rmAll_all_ne es name)

theorem nlookup_nremove_self (xs : List (String × Node)) (name : String) :
    nlookup (nremove xs name) name = none := by
  unfold nlookup
  rw [Option.map_eq_none', List.find?_eq_none]
  intro p hp
  have h2 := (List.mem_filter.mp hp).2
  simp only [Bool.not_eq_true'] at h2
  simp [h2]

theorem nremove_idem (xs : List (String × Node)) (name : String) :
    nremove (nremove xs name) name = nremove xs name := by
  unfold nremove
  rw [List.filter_filter]
  simp

theorem nremove_append_single (xs : List (String × Node)) (name : String) (n : Node) :
    nremove (xs ++ [(name, n)]) name = nremove xs name := by
  unfold nremove
  rw [List.filter_append]
  simp

theorem nlookup_append_single (xs : List (String × Node)) (name : String) (n : Node)
    (h : nlookup xs name = none) :
    nlookup (xs ++ [(name, n)]) name = some n := by
  have hf : xs.find? (fun p => p.1 == name) = none := by
    unfold nlookup at h
    cases hx : xs.find? (fun p => p.1 == name) with
    | none => rfl
    | some p =>
      rw [hx] at h
      simp at h
  unfold nlookup
  rw [List.find?_append, hf]
  simp

theorem nset_lookup_self (xs : List (String × Node)) (name : String) (n : Node) :
    nlookup (nset xs name n) name = some n := by
  induction xs with
  | nil => simp [nset, nlookup]
  | cons p rest ih =>
    obtain ⟨k0, v0⟩ := p
    by_cases h : k0 = name
    · subst h
      simp [nset, nlookup]
    · have hb : (k0 == name) = false := by simp [h]
      simpa [nset, nlookup, hb] using ih

theorem nremove_nset (xs : List (String × Node)) (name : String) (n : Node) :
    nremove (nset xs name n) name = nremove xs name := by
  induction xs with
  | nil => simp [nset, nremove]
  | cons p rest ih =>
    obtain ⟨k0, v0⟩ := p
    by_cases h : k0 = name
    · subst h
      simp [nset, nremove]
    · have hb : (k0 == name) = false := by simp [h]
      simpa [nset, nremove, hb] using ih

theorem nlookup_nremove_other (xs : List (String × Node)) (name m : String)
    (h : (m == name) = false) : nlookup (nremove xs name) m = nlookup xs m := by
  induction xs with
  | nil => rfl
  | cons p rest ih =>
    obtain ⟨k0, v0⟩ := p
    by_cases h0 : k0 = name
    · subst h0
      have hb : (m == k0) = false := h
      have hb2 : ¬ (k0 = m) := by
        intro he
        subst he
        simp at hb
      simp [nremove, nlookup, hb2] at ih ⊢
      simpa [nlookup] using ih
    · have hb : (k0 == name) = false := by simp [h0]
      by_cases h1 : k0 = m
      · subst h1
        simp [nremove, nlookup, hb]
      · have hb1 : (k0 == m) = false := by simp [h1]
        simp [nremove, nlookup, hb, hb1] at ih ⊢
        simpa [nlookup] using ih

theorem countP_write_map_toEv (l : List StepEv) :
    (l.map StepEv.toEv).countP Ev.isWrite = 0 := by
  rw [List.countP_map, List.countP_eq_zero]
  intro e _
  cases e <;> simp [StepEv.toEv, Ev.isWrite, Function.comp]

theorem countP_rmArchive_map_moveE (l : List MvEv) :
    (l.map RtEv.moveE).countP RtEv.isRmArchive = 0 := by
  rw [List.countP_map, List.countP_eq_zero]
  intro e _
  simp [RtEv.isRmArchive, Function.comp]

theorem relocateAll_no_rmArchive (names : List String) (st : MoveSt) :
    ((relocateAll names st).2.1).countP RtEv.isRmArchive = 0 := by
  induction names generalizing st with
  | nil => rfl
  | cons n rest ih =>
    rcases hm : _move n true st with ⟨st1, evs1, e1⟩
    rcases hr : relocateAll rest st1 with ⟨st2, evs2, e2⟩
    unfold relocateAll
    rw [hm]
    dsimp only
    rw [hr]
    dsimp only
    rw [List.countP_append, countP_rmArchive_map_moveE]
    have h := ih st1
    rw [hr] at h
    simpa using h

theorem downloadPhase_no_rmArchive (o : Oracle) :
    ((downloadPhase o).2.1).countP RtEv.isRmArchive = 0 := by
  unfold downloadPhase
  repeat' (first | split | dsimp only)
  all_goals rfl

/-- C6, counterexample: the claim says every parsed manifest whose
`umu.versions` mapping is missing raises a Malformed error, but for the
manifest `{"umu": "x"}` — whose `umu.versions` mapping is certainly
missing — `_get_json` raises a raw `AttributeError` (Python evaluates
`json.get("umu").get("versions")` on the string `"x"`), not the
`ValueError` that plays the Malformed role. -/
theorem c6_counterexample :
    _get_json (some (.obj [("umu", .str "x")])) = .error .attributeError ∧
    isMalformedRes (_get_json (some (.obj [("umu", .str "x")]))) = false :=
  ⟨rfl, rfl⟩

/-- C6, amended: `load(directory)` raises a `FileNotFoundError` whose
message directs the user to reinstall whenever the manifest file is absent;
and for every parsed manifest that is falsy, or whose top-level `umu` key
is missing or empty/falsy, or whose `umu` value is a mapping with a
missing or empty/falsy `versions` key, it raises the Malformed
`ValueError` (when `umu` holds a truthy non-mapping, a raw
`AttributeError` is raised instead); the loader has no side effects
beyond reading (the embedding is a pure function of the file state). -/
theorem c6_loader_validation (j : JsonVal) (h : specMalformedMapping j = true) :
    _get_json none = .error (.fileNotFound notFoundMsg) ∧
    containsSub notFoundMsg "reinstall" = true ∧
    _get_json (some j) = .error (.valueError malformedMsg) := by
  refine ⟨rfl, by decide, ?_⟩
  by_cases ht : j.truthy = true
  · unfold specMalformedMapping at h
    rw [ht] at h
    simp only [Bool.not_true, Bool.false_or] at h
    cases j with
    | null => simp [JsonVal.truthy] at ht
    | str s => simp at h
    | obj kvs =>
      dsimp only at h
      cases hu : (kvs.find? (fun p => p.1 == "umu")).map (fun p => p.2) with
      | none =>
        rw [hu] at h
        simp [_get_json, ht, pyGet, hu, optTruthy]
      | some u =>
        rw [hu] at h
        dsimp only at h
        by_cases hut : u.truthy = true
        · rw [hut] at h
          simp only [Bool.not_true, Bool.false_or] at h
          cases u with
          | null => simp [JsonVal.truthy] at hut
          | str s => simp at h
          | obj ukvs =>
            dsimp only at h
            cases hv : (ukvs.find? (fun p => p.1 == "versions")).map (fun p => p.2) with
            | none =>
              simp [_get_json, ht, pyGet, hu, optTruthy, hut, hv]
            | some vv =>
              rw [hv] at h
              simp only [Bool.not_eq_true'] at h
              simp [_get_json, ht, pyGet, hu, optTruthy, hut, hv, h]
        · have huf : u.truthy = false := by
            cases hx : u.truthy
            · rfl
            · exact absurd hx hut
          simp [_get_json, ht, pyGet, hu, optTruthy, huf]
  · have htf : j.truthy = false := by
      cases hx : j.truthy
      · rfl
      · exact absurd hx ht
    simp [_get_json, htf]

/-- C6, witness: the amended loader theorem applied to the concrete
manifest with an empty `umu` mapping. -/
theorem c6_loader_validation_witness :
    specMalformedMapping (.obj [("umu", .obj [])]) = true ∧
    _get_json (some (.obj [("umu", .obj [])])) = .error (.valueError malformedMsg) :=
  ⟨rfl, (c6_loader_validation (.obj [("umu", .obj [])]) rfl).2.2⟩

/-- C9: per-entry relocation is not atomic.  When the same-named
destination entry is a directory, `_move` removes it before checking
anything about the source entry — the pre-move guard takes the staging
ROOT's existence (`srcExists`), not the entry's — so when the source entry
is absent the move raises `FileNotFoundError` with the destination entry
already deleted and not restored. -/
theorem c9_move_not_atomic (name : String) (st : MoveSt)
    (hsrc : nlookup st.src name = none)
    (hdst : isDirO (nlookup st.dst name) = true) :
    (_move name true st).2.2 = some (.fileNotFound name) ∧
    nlookup ((_move name true st).1).dst name = none ∧
    (_move name true st).2.1 = [MvEv.rmDestE name] ∧
    ((_move name true st).1).src = st.src := by
  cases hd : nlookup st.dst name with
  | none => rw [hd] at hdst; simp [isDirO] at hdst
  | some n0 =>
    cases n0 with
    | file d => rw [hd] at hdst; simp [isDirO] at hdst
    | dir kids =>
      unfold _move
      simp [hd, hsrc, nlookup_nremove_self]

/-- C9, witness: the non-atomicity theorem applied to a staging directory
without the entry `a` and an install directory holding directory `a`. -/
theorem c9_move_not_atomic_witness :
    nlookup ([] : List (String × Node)) "a" = none ∧
    isDirO (nlookup [("a", Node.dir [("k", Node.file "y")])] "a") = true ∧
    (_move "a" true ⟨[], [("a", Node.dir [("k", Node.file "y")])]⟩).2.2
      = some (.fileNotFound "a") ∧
    nlookup ((_move "a" true ⟨[], [("a", Node.dir [("k", Node.file "y")])]⟩).1).dst "a"
      = none :=
  ⟨rfl, rfl,
   (c9_move_not_atomic "a" ⟨[], [("a", Node.dir [("k", Node.file "y")])]⟩ rfl rfl).1,
   (c9_move_not_atomic "a" ⟨[], [("a", Node.dir [("k", Node.file "y")])]⟩ rfl rfl).2.1⟩

/-- C5, counterexample: take an entry `a` that is a directory in staging
while the destination holds a same-named regular file.  The claim says the
source entry is moved to the destination "overwriting any same-name file",
leaving the destination's content under that name exactly the source's;
but `shutil.move` of a directory onto an existing regular file fails
(`os.rename` raises `NotADirectoryError` and the `copytree` fallback
refuses the existing path), and the destination keeps the old file. -/
theorem c5_counterexample :
    (_move "a" true ⟨[("a", Node.dir [])], [("a", Node.file "x")]⟩).2.2
      = some (.notADirectory "a") ∧
    nlookup ((_move "a" true ⟨[("a", Node.dir [])], [("a", Node.file "x")]⟩).1).dst "a"
      = some (Node.file "x") :=
  ⟨rfl, rfl⟩

/-- C5, amended: for every entry relocated from the staging directory,
except when the source entry is a directory and the destination holds a
same-named regular file (in which case the move fails and nothing is
overwritten, see the counterexample): a same-named destination directory
is removed recursively before the move (replacement, never a merge), a
same-named regular file is overwritten by a source file, and afterwards
the destination's content under that name is exactly the source entry's
content; the removal precedes the move in the per-entry event order, and
entries under all other names — on both sides — are untouched, which is
what lets distinct entries run in parallel. -/
theorem c5_replace_semantics (name : String) (st : MoveSt) (n : Node)
    (hs : nlookup st.src name = some n)
    (hexcl : (n.isDirN && isFileO (nlookup st.dst name)) = false) :
    (_move name true st).2.2 = none ∧
    nlookup ((_move name true st).1).dst name = some n ∧
    nlookup ((_move name true st).1).src name = none ∧
    nremove ((_move name true st).1).dst name = nremove st.dst name ∧
    nremove ((_move name true st).1).src name = nremove st.src name ∧
    (_move name true st).2.1.getLast? = some (MvEv.movedE name) ∧
    ((_move name true st).2.1.dropLast).all MvEv.isRmDest = true := by
  cases hd : nlookup st.dst name with
  | none =>
    unfold _move
    simp [hd, hs, nlookup_nremove_self, nlookup_append_single _ _ _ hd,
          nremove_append_single, nremove_idem]
  | some n0 =>
    cases n0 with
    | file d =>
      cases n with
      | dir kids =>
        rw [hd] at hexcl
        simp [Node.isDirN, isFileO] at hexcl
      | file nd =>
        unfold _move
        simp [hd, hs, nlookup_nremove_self, nset_lookup_self, nremove_nset, nremove_idem]
    | dir kids =>
      unfold _move
      have hnone : nlookup (nremove st.dst name) name = none := nlookup_nremove_self st.dst name
      simp [hd, hs, hnone, nlookup_append_single _ _ _ hnone, nlookup_nremove_self,
            nremove_append_single, nremove_idem, MvEv.isRmDest]

/-- C5, witness: the amended relocation theorem applied to an entry `a`
whose staging content is a file and whose destination holds a same-named
directory. -/
theorem c5_replace_semantics_witness :
    nlookup [("a", Node.file "new")] "a" = some (Node.file "new") ∧
    ((Node.file "new").isDirN
      && isFileO (nlookup [("a", Node.dir [("old", Node.file "o")])] "a")) = false ∧
    (_move "a" true ⟨[("a", Node.file "new")], [("a", Node.dir [("old", Node.file "o")])]⟩).2.2
      = none ∧
    nlookup ((_move "a" true
      ⟨[("a", Node.file "new")], [("a", Node.dir [("old", Node.file "o")])]⟩).1).dst "a"
      = some (Node.file "new") :=
  ⟨rfl, rfl,
   (c5_replace_semantics "a" ⟨[("a", Node.file "new")], [("a", Node.dir [("old", Node.file "o")])]⟩
     (Node.file "new") rfl rfl).1,
   (c5_replace_semantics "a" ⟨[("a", Node.file "new")], [("a", Node.dir [("old", Node.file "o")])]⟩
     (Node.file "new") rfl rfl).2.1⟩

theorem joinFutures_none_countP (f : Nat → Option PyErr) (n : Nat)
    (h : joinFutures f n = none) :
    (List.range n).countP (fun i => (f i).isSome) = 0 := by
  unfold joinFutures at h
  cases hfind : (List.range n).find? (fun i => (f i).isSome) with
  | some i =>
    rw [hfind] at h
    have hp := List.find?_some hfind
    have hn : f i = none := h
    rw [hn] at hp
    simp at hp
  | none =>
    rw [List.countP_eq_zero]
    intro a ha
    have hne := List.find?_eq_none.mp hfind a ha
    simpa using hne

/-- C1: the reconciliation run rewrites the local manifest file only as
its very last action and only after every submitted `setup_runtime` future
was joined successfully: on any propagated failure (a loop exception or a
failed future) the run's error is reported, the manifest file keeps its
previous content and no write event exists in the trace; on success every
submitted future succeeded, the write is the final event, and it is the
only write; and whenever some submitted future failed, the run reports an
error. -/
theorem c1_manifest_write_gated (f : Nat → Option PyErr) (root loc : JsonVal)
    (es : List Entry) (mf : JsonVal) (r : UpdResult)
    (hr : r = _update_umu f root loc es mf) :
    (r.err.isSome = true → r.manifestFile = mf ∧ r.trace.countP Ev.isWrite = 0) ∧
    (r.err = none →
      r.manifestFile = r.jsonLocal ∧
      (List.range r.sched).countP (fun i => (f i).isSome) = 0 ∧
      r.trace.getLast? = some (Ev.writeEv r.jsonLocal) ∧
      r.trace.countP Ev.isWrite = 1) ∧
    (0 < (List.range r.sched).countP (fun i => (f i).isSome) → r.err.isSome = true) := by
  subst hr
  unfold _update_umu
  cases hroot : pyIndex2 root "umu" "versions" with
  | error e =>
    dsimp only
    refine ⟨fun _ => ⟨rfl, rfl⟩, fun hc => by simp at hc, fun hc => by simp at hc⟩
  | ok vv =>
    cases vv with
    | null =>
      dsimp only
      exact ⟨fun _ => ⟨rfl, rfl⟩, fun hc => by simp at hc, fun hc => by simp at hc⟩
    | str s =>
      dsimp only
      exact ⟨fun _ => ⟨rfl, rfl⟩, fun hc => by simp at hc, fun hc => by simp at hc⟩
    | obj items =>
      dsimp only
      rcases hloop : updateLoop items ⟨es, loc, 0, []⟩ with ⟨st, oerr⟩
      cases oerr with
      | some e =>
        dsimp only
        exact ⟨fun _ => ⟨rfl, countP_write_map_toEv st.trace⟩,
               fun hc => by simp at hc, fun _ => rfl⟩
      | none =>
        dsimp only
        cases hjoin : joinFutures f st.sched with
        | some e =>
          dsimp only
          refine ⟨fun _ => ⟨rfl, countP_write_map_toEv st.trace⟩,
                  fun hc => by simp at hc, fun _ => rfl⟩
        | none =>
          dsimp only
          refine ⟨fun hc => by simp at hc, fun _ => ⟨rfl, ?_, ?_, ?_⟩, fun hc => ?_⟩
          · exact joinFutures_none_countP f st.sched hjoin
          · exact List.getLast?_concat _
          · rw [List.countP_append, countP_write_map_toEv]
            rfl
          · rw [joinFutures_none_countP f st.sched hjoin] at hc
            exact absurd hc (by decide)

/-- C1, witness: a run whose single scheduled re-fetch fails (the local
runtime directory exists but `pressure-vessel` is missing, so a restore is
scheduled, and the future's outcome is an error): the error propagates,
the manifest file keeps its previous content, and no write event exists. -/
theorem c1_manifest_write_gated_witness :
    (_update_umu (fun _ => some PyErr.readError) manifestAll manifestAll
        [⟨"sniper-v1", true⟩] manifestAll).err.isSome = true ∧
    (_update_umu (fun _ => some PyErr.readError) manifestAll manifestAll
        [⟨"sniper-v1", true⟩] manifestAll).manifestFile = manifestAll ∧
    (_update_umu (fun _ => some PyErr.readError) manifestAll manifestAll
        [⟨"sniper-v1", true⟩] manifestAll).trace.countP Ev.isWrite = 0 :=
  ⟨rfl,
   ((c1_manifest_write_gated (fun _ => some PyErr.readError) manifestAll manifestAll
       [⟨"sniper-v1", true⟩] manifestAll _ rfl).1 rfl).1,
   ((c1_manifest_write_gated (fun _ => some PyErr.readError) manifestAll manifestAll
       [⟨"sniper-v1", true⟩] manifestAll _ rfl).1 rfl).2⟩

/-- C10: the loader validates only that `umu` and `umu.versions` exist and
are non-empty, so reconciliation has the unstated precondition that the
local manifest carries every known component key present in the reference
manifest's versions mapping: when the first reference item's key — any of
the four known components — is absent from the local `versions` mapping,
`_update_umu` raises a raw `KeyError` for that key (not a
Malformed/Config `ValueError`), even though the local manifest passed
`_get_json` validation. -/
theorem c10_missing_key_keyerror (f : Nat → Option PyErr) (root loc : JsonVal)
    (es : List Entry) (mf : JsonVal) (k : String) (v : JsonVal)
    (rest : List (String × JsonVal))
    (hk : (k == "reaper" || (k == "runtime_platform" || (k == "launcher" || k == "runner")))
      = true)
    (hroot : pyIndex2 root "umu" "versions" = .ok (.obj ((k, v) :: rest)))
    (hloc : _get_json (some loc) = .ok loc)
    (hmiss : pyIndex3 loc "umu" "versions" k = .error (.keyError k)) :
    (_update_umu f root loc es mf).err = some (.keyError k) := by
  have hstep : updateStep k v ⟨es, loc, 0, []⟩ = (⟨es, loc, 0, []⟩, some (.keyError k)) := by
    rw [Bool.or_eq_true, Bool.or_eq_true, Bool.or_eq_true] at hk
    rcases hk with h | h | h | h
    all_goals (have hk' := eq_of_beq h; subst hk')
    · unfold updateStep
      simp [simpleStep, hmiss]
    · unfold updateStep
      simp [rtStep, hmiss]
    · unfold updateStep
      simp [simpleStep, hmiss]
    · unfold updateStep
      simp [simpleStep, hmiss]
  unfold _update_umu
  rw [hroot]
  dsimp only
  simp only [updateLoop]
  rw [hstep]

/-- C10, witness: the reference manifest carries `reaper` first, the local
manifest passes `_get_json` validation yet lacks `reaper`, and
reconciliation raises `KeyError "reaper"`. -/
theorem c10_missing_key_keyerror_witness :
    _get_json (some manifestNoReaper) = .ok manifestNoReaper ∧
    (_update_umu (fun _ => none) manifestAll manifestNoReaper [] manifestNoReaper).err
      = some (.keyError "reaper") :=
  ⟨rfl,
   c10_missing_key_keyerror (fun _ => none) manifestAll manifestNoReaper [] manifestNoReaper
     "reaper" (.str "r1")
     [("runtime_platform", .str "v1"), ("launcher", .str "l1"), ("runner", .str "n1")]
     rfl rfl rfl rfl⟩

/-- C7: for a simple component (`reaper`, `launcher`, `runner`) whose
reference version differs from its local version, the loop iteration sets
exactly that component's recorded version in `json_local` to the
reference value, leaves every other component's tracked state untouched
(including `runtime_platform`), performs no filesystem mutation, submits
no fetch future and records no event. -/
theorem c7_simple_component_update (k : String) (v : JsonVal) (st : USt) (cur : JsonVal)
    (hk : (k == "reaper" || (k == "launcher" || k == "runner")) = true)
    (hcur : pyIndex3 st.json "umu" "versions" k = .ok cur)
    (hne : jsonBeq v cur = false) :
    (updateStep k v st).2 = none ∧
    ((updateStep k v st).1).entries = st.entries ∧
    ((updateStep k v st).1).sched = st.sched ∧
    ((updateStep k v st).1).trace = st.trace ∧
    pyIndex3 ((updateStep k v st).1).json "umu" "versions" k = .ok v ∧
    pyIndex3 ((updateStep k v st).1).json "umu" "versions" "runtime_platform"
      = pyIndex3 st.json "umu" "versions" "runtime_platform" ∧
    ((k == "reaper") = false →
      pyIndex3 ((updateStep k v st).1).json "umu" "versions" "reaper"
        = pyIndex3 st.json "umu" "versions" "reaper") ∧
    ((k == "launcher") = false →
      pyIndex3 ((updateStep k v st).1).json "umu" "versions" "launcher"
        = pyIndex3 st.json "umu" "versions" "launcher") ∧
    ((k == "runner") = false →
      pyIndex3 ((updateStep k v st).1).json "umu" "versions" "runner"
        = pyIndex3 st.json "umu" "versions" "runner") := by
  rcases pySetVersions_spec st.json k cur v hcur with ⟨j', hset, hread, hothers⟩
  rw [Bool.or_eq_true, Bool.or_eq_true] at hk
  rcases hk with h | h | h
  all_goals (have hk' := eq_of_beq h; subst hk')
  · have hstep : updateStep "reaper" v st = ({ st with json := j' }, none) := by
      simp [updateStep, simpleStep, hcur, hne, hset]
    rw [hstep]
    exact ⟨rfl, rfl, rfl, rfl, hread, hothers "runtime_platform" rfl,
           fun hc => by simp at hc, fun _ => hothers "launcher" rfl,
           fun _ => hothers "runner" rfl⟩
  · have hstep : updateStep "launcher" v st = ({ st with json := j' }, none) := by
      simp [updateStep, simpleStep, hcur, hne, hset]
    rw [hstep]
    exact ⟨rfl, rfl, rfl, rfl, hread, hothers "runtime_platform" rfl,
           fun _ => hothers "reaper" rfl, fun hc => by simp at hc,
           fun _ => hothers "runner" rfl⟩
  · have hstep : updateStep "runner" v st = ({ st with json := j' }, none) := by
      simp [updateStep, simpleStep, hcur, hne, hset]
    rw [hstep]
    exact ⟨rfl, rfl, rfl, rfl, hread, hothers "runtime_platform" rfl,
           fun _ => hothers "reaper" rfl, fun _ => hothers "launcher" rfl,
           fun hc => by simp at hc⟩

/-- C7, witness: updating `runner` from `n1` to `n2` on a manifest whose
other components stay untouched. -/
theorem c7_simple_component_update_witness :
    pyIndex3 manifestAll "umu" "versions" "runner" = .ok (.str "n1") ∧
    jsonBeq (.str "n2") (.str "n1") = false ∧
    (updateStep "runner" (.str "n2") ⟨[], manifestAll, 0, []⟩).2 = none ∧
    pyIndex3 ((updateStep "runner" (.str "n2") ⟨[], manifestAll, 0, []⟩).1).json
      "umu" "versions" "runner" = .ok (.str "n2") ∧
    pyIndex3 ((updateStep "runner" (.str "n2") ⟨[], manifestAll, 0, []⟩).1).json
      "umu" "versions" "launcher" = pyIndex3 manifestAll "umu" "versions" "launcher" :=
  ⟨rfl, rfl,
   (c7_simple_component_update "runner" (.str "n2") ⟨[], manifestAll, 0, []⟩ (.str "n1")
     rfl rfl rfl).1,
   (c7_simple_component_update "runner" (.str "n2") ⟨[], manifestAll, 0, []⟩ (.str "n1")
     rfl rfl rfl).2.2.2.2.1,
   (c7_simple_component_update "runner" (.str "n2") ⟨[], manifestAll, 0, []⟩ (.str "n1")
     rfl rfl rfl).2.2.2.2.2.2.2.1 rfl⟩

theorem isDirEntry_filter_false (es : List Entry) (q : Entry → Bool) (n : String)
    (h : isDirEntry es n = false) : isDirEntry (es.filter q) n = false := by
  unfold isDirEntry at h ⊢
  rw [List.any_eq_false] at h ⊢
  intro e he
  exact h e (List.mem_filter.mp he).1

/-- C3, counterexample: the locally recorded runtime version is `v1`; the
install directory holds a regular FILE `abc-v1` — so no DIRECTORY whose
name ends with `v1` exists — together with the `pressure-vessel` marker
directory, and the reference version equals the local one.  The claim
requires the engine to remove, schedule a re-fetch and update the
recorded version; but `local.glob` also matches plain files, so the code
takes the file as the runtime, sees the marker present and the versions
equal, and does nothing at all. -/
theorem c3_counterexample :
    ([Entry.mk "abc-v1" false, Entry.mk "pressure-vessel" true].all
      (fun e => !(e.isDir && globMatch e.name "v1"))) = true ∧
    updateStep "runtime_platform" (.str "v1")
      ⟨[Entry.mk "abc-v1" false, Entry.mk "pressure-vessel" true], manifestAll, 0, []⟩
      = (⟨[Entry.mk "abc-v1" false, Entry.mk "pressure-vessel" true], manifestAll, 0, []⟩,
         none) :=
  ⟨rfl, rfl⟩

/-- C3, amended: for the `runtime_platform` iteration, whenever the glob
on the locally-recorded version finds NO entry at all (file or directory)
or the `pressure-vessel` marker directory is missing, the engine removes
whichever of the glob match (only when it is a directory) and the marker
directory exists — the removals all happening before the re-fetch future
is submitted — schedules exactly one full re-fetch-and-install driven by
the reference manifest, and sets the local manifest's recorded
`runtime_platform` version to the reference value. -/
theorem c3_restore_path (v : JsonVal) (st : USt) (cur : JsonVal)
    (hread : pyIndex3 st.json "umu" "versions" "runtime_platform" = .ok cur)
    (htrig : ((st.entries.find? (fun e => globMatch e.name (pyStr cur))).isNone
        || !(isDirEntry st.entries "pressure-vessel")) = true) :
    (updateStep "runtime_platform" v st).2 = none ∧
    ((updateStep "runtime_platform" v st).1).sched = st.sched + 1 ∧
    ((updateStep "runtime_platform" v st).1).trace.take st.trace.length = st.trace ∧
    (((updateStep "runtime_platform" v st).1).trace.drop st.trace.length).getLast?
      = some StepEv.submitE ∧
    ((((updateStep "runtime_platform" v st).1).trace.drop st.trace.length).dropLast).all
      StepEv.isRm = true ∧
    pyIndex3 ((updateStep "runtime_platform" v st).1).json "umu" "versions"
      "runtime_platform" = .ok v ∧
    isDirEntry ((updateStep "runtime_platform" v st).1).entries "pressure-vessel" = false ∧
    ((st.entries.find? (fun e => globMatch e.name (pyStr cur))).map
      (fun rr => !rr.isDir
        || ((updateStep "runtime_platform" v st).1).entries.all
             (fun e2 => !(e2.name == rr.name)))).getD true = true := by
  rcases pySetVersions_spec st.json "runtime_platform" cur v hread with ⟨j', hset, hreadv, _⟩
  have hu : updateStep "runtime_platform" v st = rtStep v st := by
    simp [updateStep]
  rw [hu]
  cases hfind : st.entries.find? (fun e => globMatch e.name (pyStr cur)) with
  | none =>
    cases hpv : isDirEntry st.entries "pressure-vessel" with
    | true =>
      have hr : rtStep v st
          = (⟨rmAll st.entries "pressure-vessel", j', st.sched + 1,
              st.trace ++ [StepEv.rmE "pressure-vessel"] ++ [StepEv.submitE]⟩, none) := by
        simp [rtStep, hread, hfind, hpv, hset]
      rw [hr]
      have hdrop : (st.trace ++ [StepEv.rmE "pressure-vessel"] ++ [StepEv.submitE]).drop
          st.trace.length = [StepEv.rmE "pressure-vessel"] ++ [StepEv.submitE] := by
        rw [List.append_assoc]
        exact List.drop_left ..
      have htake : (st.trace ++ [StepEv.rmE "pressure-vessel"] ++ [StepEv.submitE]).take
          st.trace.length = st.trace := by
        rw [List.append_assoc]
        exact List.take_left ..
      refine ⟨rfl, rfl, htake, ?_, ?_, hreadv, ?_, ?_⟩
      · rw [hdrop]
        exact List.getLast?_concat ..
      · rw [hdrop, List.dropLast_concat]
        rfl
      · exact isDirEntry_rmAll_self ..
      · rfl
    | false =>
      have hr : rtStep v st
          = (⟨st.entries, j', st.sched + 1, st.trace ++ [StepEv.submitE]⟩, none) := by
        simp [rtStep, hread, hfind, hpv, hset]
      rw [hr]
      refine ⟨rfl, rfl, List.take_left .., ?_, ?_, hreadv, hpv, ?_⟩
      · rw [List.drop_left]
        rfl
      · rw [List.drop_left]
        rfl
      · rfl
  | some r =>
    have hpvF : isDirEntry st.entries "pressure-vessel" = false := by
      rw [hfind] at htrig
      simpa using htrig
    cases hdir : r.isDir with
    | true =>
      have hpv1 : isDirEntry (rmAll st.entries r.name) "pressure-vessel" = false :=
        isDirEntry_filter_false st.entries _ "pressure-vessel" hpvF
      have hr : rtStep v st
          = (⟨rmAll st.entries r.name, j', st.sched + 1,
              st.trace ++ [StepEv.rmE r.name] ++ [StepEv.submitE]⟩, none) := by
        simp [rtStep, hread, hfind, hdir, hpvF, hpv1, hset]
      rw [hr]
      have hdrop : (st.trace ++ [StepEv.rmE r.name] ++ [StepEv.submitE]).drop
          st.trace.length = [StepEv.rmE r.name] ++ [StepEv.submitE] := by
        rw [List.append_assoc]
        exact List.drop_left ..
      have htake : (st.trace ++ [StepEv.rmE r.name] ++ [StepEv.submitE]).take
          st.trace.length = st.trace := by
        rw [List.append_assoc]
        exact List.take_left ..
      refine ⟨rfl, rfl, htake, ?_, ?_, hreadv, hpv1, ?_⟩
      · rw [hdrop]
        exact List.getLast?_concat ..
      · rw [hdrop, List.dropLast_concat]
        rfl
      · simp [hdir, rmAll_all_ne]
    | false =>
      have hr : rtStep v st
          = (⟨st.entries, j', st.sched + 1, st.trace ++ [StepEv.submitE]⟩, none) := by
        simp [rtStep, hread, hfind, hdir, hpvF, hset]
      rw [hr]
      refine ⟨rfl, rfl, List.take_left .., ?_, ?_, hreadv, hpvF, ?_⟩
      · rw [List.drop_left]
        rfl
      · rw [List.drop_left]
        rfl
      · simp [hdir]

/-- C3, witness: the runtime directory `sniper-v1` exists but
`pressure-vessel` is missing; the restore path schedules one re-fetch and
records the reference version `v2`. -/
theorem c3_restore_path_witness :
    pyIndex3 manifestAll "umu" "versions" "runtime_platform" = .ok (.str "v1") ∧
    ((([Entry.mk "sniper-v1" true].find?
        (fun e => globMatch e.name (pyStr (.str "v1")))).isNone
      || !(isDirEntry [Entry.mk "sniper-v1" true] "pressure-vessel")) = true) ∧
    (updateStep "runtime_platform" (.str "v2")
      ⟨[Entry.mk "sniper-v1" true], manifestAll, 0, []⟩).2 = none ∧
    ((updateStep "runtime_platform" (.str "v2")
      ⟨[Entry.mk "sniper-v1" true], manifestAll, 0, []⟩).1).sched = 0 + 1 ∧
    pyIndex3 ((updateStep "runtime_platform" (.str "v2")
      ⟨[Entry.mk "sniper-v1" true], manifestAll, 0, []⟩).1).json
      "umu" "versions" "runtime_platform" = .ok (.str "v2") :=
  ⟨rfl, rfl,
   (c3_restore_path (.str "v2") ⟨[Entry.mk "sniper-v1" true], manifestAll, 0, []⟩
     (.str "v1") rfl rfl).1,
   (c3_restore_path (.str "v2") ⟨[Entry.mk "sniper-v1" true], manifestAll, 0, []⟩
     (.str "v1") rfl rfl).2.1,
   (c3_restore_path (.str "v2") ⟨[Entry.mk "sniper-v1" true], manifestAll, 0, []⟩
     (.str "v1") rfl rfl).2.2.2.2.2.1⟩

/-- C2, counterexample: reference and local manifests are identical — all
four component versions equal — but the `pressure-vessel` marker is
missing from the install directory, so reconciliation nevertheless
schedules a re-fetch (one submitted future, one submit event),
contradicting the claim's unconditional "zero fetches" (and its
byte-for-byte-unchanged consequence is moot since the restore also
rewrites the recorded version from the reference). -/
theorem c2_counterexample :
    (_update_umu (fun _ => none) manifestAll manifestAll
      [Entry.mk "sniper-v1" true] manifestAll).sched = 1 ∧
    (_update_umu (fun _ => none) manifestAll manifestAll
      [Entry.mk "sniper-v1" true] manifestAll).trace.countP Ev.isSubmit = 1 :=
  ⟨rfl, rfl⟩

theorem updateStep_noop (k : String) (v : JsonVal) (st : USt)
    (hmatch : isKnownKey k = false ∨ versionMatches st.json k v = true)
    (hrt : k = "runtime_platform" → rtIntact st.entries st.json = true) :
    updateStep k v st = (st, none) := by
  by_cases hk1 : k = "reaper"
  · subst hk1
    have hvm : versionMatches st.json "reaper" v = true := by
      rcases hmatch with h | h
      · simp [isKnownKey] at h
      · exact h
    unfold versionMatches at hvm
    cases hre : pyIndex3 st.json "umu" "versions" "reaper" with
    | error e =>
      rw [hre] at hvm
      simp at hvm
    | ok w =>
      rw [hre] at hvm
      dsimp only at hvm
      simp [updateStep, simpleStep, hre, hvm]
  by_cases hk2 : k = "runtime_platform"
  · subst hk2
    have hvm : versionMatches st.json "runtime_platform" v = true := by
      rcases hmatch with h | h
      · simp [isKnownKey] at h
      · exact h
    have hint := hrt rfl
    unfold rtIntact at hint
    unfold versionMatches at hvm
    cases hre : pyIndex3 st.json "umu" "versions" "runtime_platform" with
    | error e =>
      rw [hre] at hvm
      simp at hvm
    | ok w =>
      rw [hre] at hvm
      dsimp only at hvm
      rw [hre] at hint
      rw [Bool.and_eq_true] at hint
      obtain ⟨hfindS, hpv⟩ := hint
      cases hfind : st.entries.find? (fun e => globMatch e.name (pyStr w)) with
      | none =>
        rw [hfind] at hfindS
        simp at hfindS
      | some r =>
        simp [updateStep, rtStep, hre, hfind, hpv, hvm]
  by_cases hk3 : k = "launcher"
  · subst hk3
    have hvm : versionMatches st.json "launcher" v = true := by
      rcases hmatch with h | h
      · simp [isKnownKey] at h
      · exact h
    unfold versionMatches at hvm
    cases hre : pyIndex3 st.json "umu" "versions" "launcher" with
    | error e =>
      rw [hre] at hvm
      simp at hvm
    | ok w =>
      rw [hre] at hvm
      dsimp only at hvm
      simp [updateStep, simpleStep, hre, hvm]
  by_cases hk4 : k = "runner"
  · subst hk4
    have hvm : versionMatches st.json "runner" v = true := by
      rcases hmatch with h | h
      · simp [isKnownKey] at h
      · exact h
    unfold versionMatches at hvm
    cases hre : pyIndex3 st.json "umu" "versions" "runner" with
    | error e =>
      rw [hre] at hvm
      simp at hvm
    | ok w =>
      rw [hre] at hvm
      dsimp only at hvm
      simp [updateStep, simpleStep, hre, hvm]
  · have hb1 : (k == "reaper") = false := by simp [hk1]
    have hb2 : (k == "runtime_platform") = false := by simp [hk2]
    have hb3 : (k == "launcher") = false := by simp [hk3]
    have hb4 : (k == "runner") = false := by simp [hk4]
    simp [updateStep, hb1, hb2, hb3, hb4]

theorem updateLoop_noop (items : List (String × JsonVal)) (st : USt)
    (h : ∀ kv ∈ items, updateStep kv.1 kv.2 st = (st, none)) :
    updateLoop items st = (st, none) := by
  induction items with
  | nil => rfl
  | cons kv rest ih =>
    obtain ⟨k0, v0⟩ := kv
    have h1 := h (k0, v0) (List.mem_cons_self ..)
    unfold updateLoop
    rw [h1]
    dsimp only
    exact ih (fun kv2 hkv2 => h kv2 (List.mem_cons_of_mem _ hkv2))

/-- C2, amended: when every reference item with a known component key
Python-equals the locally recorded version AND the installed runtime is
intact (the glob on the local `runtime_platform` version finds an entry
and `pressure-vessel` is a directory), reconciliation submits zero
fetches, performs zero removals, leaves the install listing and
`json_local` untouched, and its only action is rewriting the local
manifest file from the unchanged `json_local` — so the parsed content is
unchanged, and the bytes coincide exactly when the previous file already
used the writer's own serialization format. -/
theorem c2_all_equal_noop (f : Nat → Option PyErr) (root loc : JsonVal)
    (es : List Entry) (mf : JsonVal) (items : List (String × JsonVal))
    (hroot : pyIndex2 root "umu" "versions" = .ok (.obj items))
    (hvals : items.all (fun kv => !(isKnownKey kv.1) || versionMatches loc kv.1 kv.2) = true)
    (hintact : rtIntact es loc = true) :
    (_update_umu f root loc es mf).err = none ∧
    (_update_umu f root loc es mf).sched = 0 ∧
    (_update_umu f root loc es mf).entries = es ∧
    (_update_umu f root loc es mf).jsonLocal = loc ∧
    (_update_umu f root loc es mf).manifestFile = loc ∧
    (_update_umu f root loc es mf).trace = [Ev.writeEv loc] := by
  have hloop : updateLoop items ⟨es, loc, 0, []⟩ = (⟨es, loc, 0, []⟩, none) := by
    apply updateLoop_noop
    intro kv hkv
    have hv := List.all_eq_true.mp hvals kv hkv
    apply updateStep_noop
    · rw [Bool.or_eq_true] at hv
      rcases hv with h | h
      · left
        simpa using h
      · right
        exact h
    · intro _
      exact hintact
  unfold _update_umu
  rw [hroot]
  dsimp only
  rw [hloop]
  exact ⟨rfl, rfl, rfl, rfl, rfl, rfl⟩

/-- C2, witness: identical manifests and an intact install (runtime
directory and `pressure-vessel` both present): no fetch, no removal, the
listing and `json_local` unchanged, and the only event is the rewrite of
the manifest file from the unchanged mapping. -/
theorem c2_all_equal_noop_witness :
    pyIndex2 manifestAll "umu" "versions" = .ok (.obj
      [("reaper", .str "r1"), ("runtime_platform", .str "v1"),
       ("launcher", .str "l1"), ("runner", .str "n1")]) ∧
    ([(("reaper" : String), JsonVal.str "r1"), ("runtime_platform", JsonVal.str "v1"),
      ("launcher", JsonVal.str "l1"), ("runner", JsonVal.str "n1")].all
        (fun kv => !(isKnownKey kv.1) || versionMatches manifestAll kv.1 kv.2)) = true ∧
    rtIntact [Entry.mk "sniper-v1" true, Entry.mk "pressure-vessel" true] manifestAll
      = true ∧
    (_update_umu (fun _ => none) manifestAll manifestAll
      [Entry.mk "sniper-v1" true, Entry.mk "pressure-vessel" true] manifestAll).sched
      = 0 ∧
    (_update_umu (fun _ => none) manifestAll manifestAll
      [Entry.mk "sniper-v1" true, Entry.mk "pressure-vessel" true] manifestAll).trace
      = [Ev.writeEv manifestAll] :=
  ⟨rfl, rfl, rfl,
   (c2_all_equal_noop (fun _ => none) manifestAll manifestAll
     [Entry.mk "sniper-v1" true, Entry.mk "pressure-vessel" true] manifestAll
     [("reaper", .str "r1"), ("runtime_platform", .str "v1"),
      ("launcher", .str "l1"), ("runner", .str "n1")] rfl rfl rfl).2.1,
   (c2_all_equal_noop (fun _ => none) manifestAll manifestAll
     [Entry.mk "sniper-v1" true, Entry.mk "pressure-vessel" true] manifestAll
     [("reaper", .str "r1"), ("runtime_platform", .str "v1"),
      ("launcher", .str "l1"), ("runner", .str "n1")] rfl rfl rfl).2.2.2.2.2⟩

/-- C4, counterexample: a fully successful `setup_runtime` run (direct
fetch with status 200, valid archive, entry point extracted and renamed)
ends with the `mkdtemp` staging directory still existing: the source
removes the extracted subtree and the archive file but never removes the
staging directory itself, so the claim's "fully removed by the end of the
operation, whether the operation succeeded or failed" is false already on
the success path. -/
theorem c4_counterexample :
    (setup_runtime oracleHappy []).err = none ∧
    (setup_runtime oracleHappy []).tmpExists = true :=
  ⟨rfl, rfl⟩

/-- C4, amended: the staging directory itself survives every
`setup_runtime` run, success or failure; on a successful run the
extracted subtree is gone, the downloaded archive file is gone, and its
removal is its own step (exactly one archive-unlink event); on a failed
run no staging cleanup beyond the zenity partial-download unlink is
attempted. -/
theorem c4_staging_cleanup (o : Oracle) (inst : List (String × Node)) :
    (setup_runtime o inst).tmpExists = true ∧
    ((setup_runtime o inst).err = none →
      (setup_runtime o inst).extracted = false ∧
      (setup_runtime o inst).archive = false ∧
      (setup_runtime o inst).events.countP RtEv.isRmArchive = 1) := by
  unfold setup_runtime
  rcases hdp : downloadPhase o with ⟨arch, evs, derr⟩
  have hevs : evs.countP RtEv.isRmArchive = 0 := by
    have h := downloadPhase_no_rmArchive o
    rw [hdp] at h
    exact h
  cases derr with
  | some e => exact ⟨by simp, fun hc => absurd hc (by simp)⟩
  | none =>
    dsimp only
    cases harch : arch with
    | false => exact ⟨by simp, fun hc => absurd hc (by simp)⟩
    | true =>
      cases htar : o.tarOk with
      | false => exact ⟨by simp, fun hc => absurd hc (by simp)⟩
      | true =>
        have hwarn : (if o.tarFilterAvail then ([] : List RtEv)
            else [RtEv.insecureWarnE]).countP RtEv.isRmArchive = 0 := by
          cases o.tarFilterAvail <;> rfl
        cases hex : o.extractedRoot with
        | none =>
          dsimp only
          rcases hren : renameEntryPoint inst with ⟨inst1, rerr⟩
          try rw [hren]
          cases rerr with
          | some e => exact ⟨by simp, fun hc => absurd hc (by simp)⟩
          | none =>
            refine ⟨by simp, fun _ => ⟨by simp, by simp, ?_⟩⟩
            simp [List.countP_append, hevs, hwarn, RtEv.isRmArchive]
        | some children =>
          dsimp only
          rcases hrel : relocateAll (children.map (fun p => p.1))
              ⟨children, inst⟩ with ⟨mst, mevs, merr⟩
          try rw [hrel]
          have hmevs : mevs.countP RtEv.isRmArchive = 0 := by
            have h := relocateAll_no_rmArchive
              (children.map (fun p => p.1)) ⟨children, inst⟩
            rw [hrel] at h
            exact h
          cases merr with
          | some e => exact ⟨by simp, fun hc => absurd hc (by simp)⟩
          | none =>
            dsimp only
            rcases hren : renameEntryPoint mst.dst with ⟨inst1, rerr⟩
            try rw [hren]
            cases rerr with
            | some e => exact ⟨by simp, fun hc => absurd hc (by simp)⟩
            | none =>
              refine ⟨by simp, fun _ => ⟨by simp, by simp, ?_⟩⟩
              simp [List.countP_append, hevs, hwarn, hmevs, RtEv.isRmArchive]

/-- C4, witness: the amended staging theorem applied to a fully successful
run. -/
theorem c4_staging_cleanup_witness :
    (setup_runtime oracleHappy []).err = none ∧
    (setup_runtime oracleHappy []).tmpExists = true ∧
    (setup_runtime oracleHappy []).extracted = false ∧
    (setup_runtime oracleHappy []).archive = false ∧
    (setup_runtime oracleHappy []).events.countP RtEv.isRmArchive = 1 :=
  ⟨rfl, (c4_staging_cleanup oracleHappy []).1,
   ((c4_staging_cleanup oracleHappy []).2 rfl).1,
   ((c4_staging_cleanup oracleHappy []).2 rfl).2.1,
   ((c4_staging_cleanup oracleHappy []).2 rfl).2.2⟩

theorem setup_runtime_events_shape (o : Oracle) (inst : List (String × Node)) :
    ∃ l, (setup_runtime o inst).events = (downloadPhase o).2.1 ++ l := by
  unfold setup_runtime
  rcases hdp : downloadPhase o with ⟨arch, evs, derr⟩
  cases derr with
  | some e => exact ⟨[], by simp⟩
  | none =>
    dsimp only
    cases arch with
    | false => exact ⟨[], by simp⟩
    | true =>
      cases o.tarOk with
      | false => exact ⟨[], by simp⟩
      | true =>
        cases o.extractedRoot with
        | none =>
          dsimp only
          rcases hren : renameEntryPoint inst with ⟨inst1, rerr⟩
          try rw [hren]
          cases rerr with
          | some e =>
            exact ⟨(if o.tarFilterAvail then ([] : List RtEv) else [RtEv.insecureWarnE])
              ++ [RtEv.rmArchiveE], by simp⟩
          | none =>
            exact ⟨(if o.tarFilterAvail then ([] : List RtEv) else [RtEv.insecureWarnE])
              ++ ([RtEv.rmArchiveE] ++ [RtEv.renameE]), by simp⟩
        | some children =>
          dsimp only
          rcases hrel : relocateAll (children.map (fun p => p.1))
              ⟨children, inst⟩ with ⟨mst, mevs, merr⟩
          try rw [hrel]
          cases merr with
          | some e =>
            exact ⟨(if o.tarFilterAvail then ([] : List RtEv) else [RtEv.insecureWarnE])
              ++ mevs, by simp⟩
          | none =>
            dsimp only
            rcases hren : renameEntryPoint mst.dst with ⟨inst1, rerr⟩
            try rw [hren]
            cases rerr with
            | some e =>
              exact ⟨(if o.tarFilterAvail then ([] : List RtEv) else [RtEv.insecureWarnE])
                ++ (mevs ++ [RtEv.rmExtractedE, RtEv.rmArchiveE]), by simp⟩
            | none =>
              exact ⟨(if o.tarFilterAvail then ([] : List RtEv) else [RtEv.insecureWarnE])
                ++ (mevs ++ ([RtEv.rmExtractedE, RtEv.rmArchiveE] ++ [RtEv.renameE])), by simp⟩

/-- C8: when `UMU_ZENITY` is `"1"` and the external zenity/curl fetch
exits non-zero, the partially downloaded archive is unlinked and the
fetch is retried directly with the fixed 300-unit timeout (the first
three events of the run are exactly zenity fetch, partial-archive
discard, direct fetch with timeout 300); and whenever the direct
transfer's status is not 200, `setup_runtime` aborts with the
`HTTPException` naming that status, with no further fetch attempt (the
run's events stop at the direct fetch). -/
theorem c8_zenity_fallback (o : Oracle) (inst : List (String × Node)) (s : Nat)
    (h1 : o.umuZenity = some "1")
    (h2 : (o.zenityRet != 0) = true)
    (h3 : o.fetchResult = .ok s) :
    (setup_runtime o inst).events.take 3
      = [RtEv.zenityFetchE, RtEv.discardArchiveE, RtEv.directFetchE 300] ∧
    ((s != 200) = true →
      (setup_runtime o inst).err = some (.httpException
        ("repo.steampowered.com returned the status: " ++ toString s)) ∧
      (setup_runtime o inst).events
        = [RtEv.zenityFetchE, RtEv.discardArchiveE, RtEv.directFetchE 300]) := by
  by_cases hs : (s != 200) = true
  · have hdp : downloadPhase o = (false,
        [RtEv.zenityFetchE, RtEv.discardArchiveE, RtEv.directFetchE 300],
        some (.httpException ("repo.steampowered.com returned the status: " ++ toString s)))
        := by
      unfold downloadPhase
      rw [h1, h3]
      simp [h2, hs, envTruthy]
    have hrun : setup_runtime o inst = ⟨true, false, false, inst,
        [RtEv.zenityFetchE, RtEv.discardArchiveE, RtEv.directFetchE 300],
        some (.httpException ("repo.steampowered.com returned the status: " ++ toString s))⟩
        := by
      unfold setup_runtime
      rw [hdp]
    rw [hrun]
    exact ⟨rfl, fun _ => ⟨rfl, rfl⟩⟩
  · have hs' : (s != 200) = false := by
      cases hx : (s != 200)
      · rfl
      · exact absurd hx hs
    have hdp : downloadPhase o = (true,
        [RtEv.zenityFetchE, RtEv.discardArchiveE, RtEv.directFetchE 300], none) := by
      unfold downloadPhase
      rw [h1, h3]
      simp [h2, hs', envTruthy]
    obtain ⟨l, hl⟩ := setup_runtime_events_shape o inst
    rw [hdp] at hl
    refine ⟨?_, fun hc => absurd hc hs⟩
    rw [hl]
    rfl

/-- C8, witness: `UMU_ZENITY=1`, zenity exits 1 leaving a partial
archive, the direct retry gets HTTP 404: the partial file is discarded,
the direct fetch runs with timeout 300, and the run aborts with the
`HTTPException` and no further fetch. -/
theorem c8_zenity_fallback_witness :
    oracleZenityFail.umuZenity = some "1" ∧
    (oracleZenityFail.zenityRet != 0) = true ∧
    oracleZenityFail.fetchResult = .ok 404 ∧
    (setup_runtime oracleZenityFail []).events.take 3
      = [RtEv.zenityFetchE, RtEv.discardArchiveE, RtEv.directFetchE 300] ∧
    (setup_runtime oracleZenityFail []).err = some (.httpException
      ("repo.steampowered.com returned the status: " ++ toString 404)) ∧
    (setup_runtime oracleZenityFail []).events
      = [RtEv.zenityFetchE, RtEv.discardArchiveE, RtEv.directFetchE 300] :=
  ⟨rfl, rfl, rfl,
   (c8_zenity_fallback oracleZenityFail [] 404 rfl rfl rfl).1,
   ((c8_zenity_fallback oracleZenityFail [] 404 rfl rfl rfl).2 rfl).1,
   ((c8_zenity_fallback oracleZenityFail [] 404 rfl rfl rfl).2 rfl).2⟩
